import Mathlib

/-!
Verification of the qiangs_news_insight aggregation pipeline.

Shallow embedding of the core stages of the news aggregator:
dictionary-shaped article records become structures with defaulted fields
(a missing dict key and `dict.get(k, d)` become the default value),
Python sets mutated in place become explicit state passing of membership
lists, `datetime` instants become integers counting microseconds (after
the pipeline's normalization to a naive wall-clock instant), and the
external collaborators (feedparser entries, BeautifulSoup elements, the
HTTP translation providers, the JSON parser, Python's Unicode `isalnum`
table and the MD5 digest) enter as explicit parameters: the pipeline code
only ever consumes their results, so the embedding quantifies over them.
-/

/-- Pipeline article record: the dict shape produced by
`BaseScraper.scrape` / `NewsAggregator.scrape_source` and consumed by the
dedup and translation stages in `main.py`.  Optional derived fields model
dict keys that may be absent (`none` = key absent, matching
`article.get(k)` returning a falsy default). -/
structure ArticleDict where
  title : String := ""
  url : String := ""
  content : String := ""
  published_at : Int := 0
  source_type : String := ""
  translate : Bool := false
  notion_id : String := ""
  summary : Option String := none
  translated_content : Option String := none
  translated_title : Option String := none
deriving DecidableEq, Repr

/-- `Deduplicator.deduplicate_by_url` (src/backend/processors/dedup.py
lines 15-37): keep a candidate iff its `url` is non-empty and not in the
seen set, adding kept URLs to the set; the mutated set is returned as the
second component (Python mutates `existing_urls` in place). -/
def deduplicate_by_url : List ArticleDict → List String → List ArticleDict × List String
  | [], seen => ([], seen)
  | a :: rest, seen =>
    if a.url ≠ "" ∧ a.url ∉ seen then
      let r := deduplicate_by_url rest (a.url :: seen)
      (a :: r.1, r.2)
    else
      deduplicate_by_url rest seen

/-- `Deduplicator.deduplicate_by_title` (dedup.py lines 39-63): keep a
candidate iff its `title` is non-empty and the title's hash is not in the
seen set, adding kept hashes.  The code hashes with
`md5(title.encode()).hexdigest()`; the embedding abstracts the digest as
a parameter `h`, since the stage only ever compares digests for
equality. -/
def deduplicate_by_title (h : String → String) :
    List ArticleDict → List String → List ArticleDict × List String
  | [], seen => ([], seen)
  | a :: rest, seen =>
    if a.title ≠ "" ∧ h a.title ∉ seen then
      let r := deduplicate_by_title h rest (h a.title :: seen)
      (a :: r.1, r.2)
    else
      deduplicate_by_title h rest seen

/-- `Deduplicator.deduplicate` (dedup.py lines 65-91): method dispatch;
for `"both"` (the default, and any unrecognized method string) the URL
pass runs first and the title pass runs on its output.  The final states
of both seen sets are returned alongside the result list. -/
def deduplicate (h : String → String) (articles : List ArticleDict)
    (existing_urls existing_titles : List String) (method : String) :
    List ArticleDict × List String × List String :=
  if method = "url" then
    let r := deduplicate_by_url articles existing_urls
    (r.1, r.2, existing_titles)
  else if method = "title" then
    let r := deduplicate_by_title h articles existing_titles
    (r.1, existing_urls, r.2)
  else
    let r1 := deduplicate_by_url articles existing_urls
    let r2 := deduplicate_by_title h r1.1 existing_titles
    (r2.1, r1.2, r2.2)

/-- `deduplicate_articles` (dedup.py lines 94-109): convenience wrapper
constructing a fresh `Deduplicator` (whose own instance sets are unused)
and delegating. -/
def deduplicate_articles (h : String → String) (articles : List ArticleDict)
    (existing_urls existing_titles : List String) (method : String) :
    List ArticleDict × List String × List String :=
  deduplicate h articles existing_urls existing_titles method

-- Basic lemmas about the URL pass.

theorem deduplicate_by_url_seen_mono (l : List ArticleDict) (seen : List String)
    (x : String) (hx : x ∈ seen) : x ∈ (deduplicate_by_url l seen).2 := by
  induction l generalizing seen with
  | nil => simpa [deduplicate_by_url] using hx
  | cons a rest ih =>
    by_cases hc : a.url ≠ "" ∧ a.url ∉ seen
    · simp only [deduplicate_by_url, if_pos hc]
      exact ih (a.url :: seen) (List.mem_cons_of_mem _ hx)
    · simp only [deduplicate_by_url, if_neg hc]
      exact ih seen hx

theorem deduplicate_by_url_covered (l : List ArticleDict) (seen : List String)
    (x : ArticleDict) (hx : x ∈ l) :
    x.url = "" ∨ x.url ∈ (deduplicate_by_url l seen).2 := by
  induction l generalizing seen with
  | nil => cases hx
  | cons a rest ih =>
    by_cases hc : a.url ≠ "" ∧ a.url ∉ seen
    · simp only [deduplicate_by_url, if_pos hc]
      rcases List.mem_cons.mp hx with h | h
      · subst h
        exact Or.inr (deduplicate_by_url_seen_mono rest _ _ (List.mem_cons_self _ _))
      · exact ih _ h
    · simp only [deduplicate_by_url, if_neg hc]
      rcases List.mem_cons.mp hx with h | h
      · subst h
        rcases Decidable.not_and_iff_or_not.mp hc with h1 | h2
        · exact Or.inl (Decidable.not_not.mp h1)
        · exact Or.inr (deduplicate_by_url_seen_mono rest seen _ (Decidable.not_not.mp h2))
      · exact ih _ h

theorem deduplicate_by_url_all_seen (l : List ArticleDict) (seen : List String)
    (hall : ∀ x ∈ l, x.url = "" ∨ x.url ∈ seen) :
    (deduplicate_by_url l seen).1 = [] := by
  induction l generalizing seen with
  | nil => simp [deduplicate_by_url]
  | cons a rest ih =>
    have ha := hall a (List.mem_cons_self _ _)
    have hc : ¬(a.url ≠ "" ∧ a.url ∉ seen) := by
      rcases ha with h | h
      · exact fun hh => hh.1 h
      · exact fun hh => hh.2 h
    simp only [deduplicate_by_url, if_neg hc]
    exact ih seen (fun x hx => hall x (List.mem_cons_of_mem _ hx))

/-- C4: Dedup idempotence.  Running `deduplicate` with method `"both"`
once, then re-running it on the same original candidate list with the
mutated seen sets, yields an empty list on the second run: every
candidate either had an empty URL (always dropped), or its URL ended up
in the mutated URL set, so the second URL pass removes everything and
the title pass of an empty list is empty. -/
theorem dedup_idempotent (h : String → String) (articles : List ArticleDict)
    (existing_urls existing_titles : List String) :
    (deduplicate h articles
      (deduplicate h articles existing_urls existing_titles "both").2.1
      (deduplicate h articles existing_urls existing_titles "both").2.2
      "both").1 = [] := by
  simp only [deduplicate, if_neg (by decide : ¬("both" = "url")),
    if_neg (by decide : ¬("both" = "title"))]
  have hurl : (deduplicate_by_url articles
      (deduplicate_by_url articles existing_urls).2).1 = [] := by
    apply deduplicate_by_url_all_seen
    intro x hx
    exact deduplicate_by_url_covered articles existing_urls x hx
  simp [hurl, deduplicate_by_title]

-- Membership lemmas for both passes (used by C5 and C10).

theorem deduplicate_by_url_mem (l : List ArticleDict) (u : List String)
    (x : ArticleDict) (hx : x ∈ (deduplicate_by_url l u).1) :
    x ∈ l ∧ x.url ≠ "" ∧ x.url ∉ u := by
  induction l generalizing u with
  | nil => simp [deduplicate_by_url] at hx
  | cons a rest ih =>
    by_cases hc : a.url ≠ "" ∧ a.url ∉ u
    · simp only [deduplicate_by_url, if_pos hc] at hx
      rcases List.mem_cons.mp hx with h | h
      · subst h
        exact ⟨List.mem_cons_self _ _, hc.1, hc.2⟩
      · have h' := ih _ h
        exact ⟨List.mem_cons_of_mem _ h'.1, h'.2.1,
          fun hm => h'.2.2 (List.mem_cons_of_mem _ hm)⟩
    · simp only [deduplicate_by_url, if_neg hc] at hx
      have h' := ih _ hx
      exact ⟨List.mem_cons_of_mem _ h'.1, h'.2⟩

theorem deduplicate_by_title_mem (h : String → String) (l : List ArticleDict)
    (t : List String) (x : ArticleDict) (hx : x ∈ (deduplicate_by_title h l t).1) :
    x ∈ l ∧ x.title ≠ "" ∧ h x.title ∉ t := by
  induction l generalizing t with
  | nil => simp [deduplicate_by_title] at hx
  | cons a rest ih =>
    by_cases hc : a.title ≠ "" ∧ h a.title ∉ t
    · simp only [deduplicate_by_title, if_pos hc] at hx
      rcases List.mem_cons.mp hx with h1 | h1
      · subst h1
        exact ⟨List.mem_cons_self _ _, hc.1, hc.2⟩
      · have h' := ih _ h1
        exact ⟨List.mem_cons_of_mem _ h'.1, h'.2.1,
          fun hm => h'.2.2 (List.mem_cons_of_mem _ hm)⟩
    · simp only [deduplicate_by_title, if_neg hc] at hx
      have h' := ih _ hx
      exact ⟨List.mem_cons_of_mem _ h'.1, h'.2⟩

/-- C10: every article surviving `deduplicate` with method `"both"` has a
non-empty `url` (the URL pass drops empty URLs) and a non-empty `title`
(the title pass drops empty titles), for any digest function and any
pre-seeded sets; hence empty-URL and empty-title candidates never reach
the output. -/
theorem dedup_both_output_nonempty_fields (h : String → String)
    (articles : List ArticleDict) (existing_urls existing_titles : List String)
    (x : ArticleDict)
    (hx : x ∈ (deduplicate h articles existing_urls existing_titles "both").1) :
    x.url ≠ "" ∧ x.title ≠ "" := by
  simp only [deduplicate, if_neg (by decide : ¬("both" = "url")),
    if_neg (by decide : ¬("both" = "title"))] at hx
  have ht := deduplicate_by_title_mem h _ _ x hx
  have hu := deduplicate_by_url_mem articles existing_urls x ht.1
  exact ⟨hu.2.1, ht.2.1⟩

/-- Witness for C10 at a concrete input. -/
theorem dedup_both_output_nonempty_fields_witness :
    ({ title := "T", url := "u" } : ArticleDict).url ≠ "" ∧
    ({ title := "T", url := "u" } : ArticleDict).title ≠ "" :=
  dedup_both_output_nonempty_fields (fun s => s)
    [{ title := "T", url := "u" }] [] [] _ (by decide)

-- Decomposition lemmas used by the order-sensitivity analysis (C5).

theorem deduplicate_by_url_cons_keep (a : ArticleDict) (l : List ArticleDict)
    (u : List String) (h1 : a.url ≠ "") (h2 : a.url ∉ u) :
    deduplicate_by_url (a :: l) u =
      (a :: (deduplicate_by_url l (a.url :: u)).1,
       (deduplicate_by_url l (a.url :: u)).2) := by
  simp [deduplicate_by_url, h1, h2]

theorem deduplicate_by_url_append (l1 l2 : List ArticleDict) (u : List String) :
    deduplicate_by_url (l1 ++ l2) u =
      ((deduplicate_by_url l1 u).1 ++
        (deduplicate_by_url l2 (deduplicate_by_url l1 u).2).1,
       (deduplicate_by_url l2 (deduplicate_by_url l1 u).2).2) := by
  induction l1 generalizing u with
  | nil => simp [deduplicate_by_url]
  | cons a rest ih =>
    by_cases hc : a.url ≠ "" ∧ a.url ∉ u
    · simp only [List.cons_append, deduplicate_by_url, if_pos hc, List.append_eq, ih]
    · simp only [List.cons_append, deduplicate_by_url, if_neg hc, List.append_eq, ih]

theorem deduplicate_by_url_seen_from (l : List ArticleDict) (u : List String)
    (x : String) (hx : x ∈ (deduplicate_by_url l u).2) :
    x ∈ u ∨ ∃ c ∈ l, c.url = x := by
  induction l generalizing u with
  | nil => simp [deduplicate_by_url] at hx; exact Or.inl hx
  | cons a rest ih =>
    by_cases hc : a.url ≠ "" ∧ a.url ∉ u
    · simp only [deduplicate_by_url, if_pos hc] at hx
      rcases ih _ hx with h | ⟨c, hc1, hc2⟩
      · rcases List.mem_cons.mp h with h | h
        · exact Or.inr ⟨a, List.mem_cons_self _ _, h.symm⟩
        · exact Or.inl h
      · exact Or.inr ⟨c, List.mem_cons_of_mem _ hc1, hc2⟩
    · simp only [deduplicate_by_url, if_neg hc] at hx
      rcases ih _ hx with h | ⟨c, hc1, hc2⟩
      · exact Or.inl h
      · exact Or.inr ⟨c, List.mem_cons_of_mem _ hc1, hc2⟩

theorem deduplicate_by_title_cons_keep (hsh : String → String) (a : ArticleDict)
    (l : List ArticleDict) (t : List String)
    (h1 : a.title ≠ "") (h2 : hsh a.title ∉ t) :
    deduplicate_by_title hsh (a :: l) t =
      (a :: (deduplicate_by_title hsh l (hsh a.title :: t)).1,
       (deduplicate_by_title hsh l (hsh a.title :: t)).2) := by
  simp [deduplicate_by_title, h1, h2]

theorem deduplicate_by_title_cons_drop (hsh : String → String) (a : ArticleDict)
    (l : List ArticleDict) (t : List String)
    (h2 : hsh a.title ∈ t) :
    deduplicate_by_title hsh (a :: l) t = deduplicate_by_title hsh l t := by
  simp [deduplicate_by_title, h2]

theorem deduplicate_by_title_append (hsh : String → String)
    (l1 l2 : List ArticleDict) (t : List String) :
    deduplicate_by_title hsh (l1 ++ l2) t =
      ((deduplicate_by_title hsh l1 t).1 ++
        (deduplicate_by_title hsh l2 (deduplicate_by_title hsh l1 t).2).1,
       (deduplicate_by_title hsh l2 (deduplicate_by_title hsh l1 t).2).2) := by
  induction l1 generalizing t with
  | nil => simp [deduplicate_by_title]
  | cons a rest ih =>
    by_cases hc : a.title ≠ "" ∧ hsh a.title ∉ t
    · simp only [List.cons_append, deduplicate_by_title, if_pos hc, List.append_eq, ih]
    · simp only [List.cons_append, deduplicate_by_title, if_neg hc, List.append_eq, ih]

theorem deduplicate_by_title_seen_mono (hsh : String → String)
    (l : List ArticleDict) (t : List String) (x : String) (hx : x ∈ t) :
    x ∈ (deduplicate_by_title hsh l t).2 := by
  induction l generalizing t with
  | nil => simpa [deduplicate_by_title] using hx
  | cons a rest ih =>
    by_cases hc : a.title ≠ "" ∧ hsh a.title ∉ t
    · simp only [deduplicate_by_title, if_pos hc]
      exact ih _ (List.mem_cons_of_mem _ hx)
    · simp only [deduplicate_by_title, if_neg hc]
      exact ih _ hx

theorem deduplicate_by_title_seen_from (hsh : String → String)
    (l : List ArticleDict) (t : List String) (x : String)
    (hx : x ∈ (deduplicate_by_title hsh l t).2) :
    x ∈ t ∨ ∃ c ∈ l, hsh c.title = x := by
  induction l generalizing t with
  | nil => simp [deduplicate_by_title] at hx; exact Or.inl hx
  | cons a rest ih =>
    by_cases hc : a.title ≠ "" ∧ hsh a.title ∉ t
    · simp only [deduplicate_by_title, if_pos hc] at hx
      rcases ih _ hx with h | ⟨c, hc1, hc2⟩
      · rcases List.mem_cons.mp h with h | h
        · exact Or.inr ⟨a, List.mem_cons_self _ _, h.symm⟩
        · exact Or.inl h
      · exact Or.inr ⟨c, List.mem_cons_of_mem _ hc1, hc2⟩
    · simp only [deduplicate_by_title, if_neg hc] at hx
      rcases ih _ hx with h | ⟨c, hc1, hc2⟩
      · exact Or.inl h
      · exact Or.inr ⟨c, List.mem_cons_of_mem _ hc1, hc2⟩

/-- C5 (amended): order sensitivity of the two dedup passes.  For a pair
of candidates `a` (earlier) and `b` (later) with equal non-empty titles
and distinct non-empty URLs absent from the pre-seeded URL set, in a list
where no other candidate shares a URL with the pair, the shared title's
digest is not pre-seeded, and no candidate before `a` has the same title
digest: both survive the URL pass, only `a` survives the subsequent
title pass, and the `"both"` method is exactly the title pass applied to
the URL pass's output. -/
theorem dedup_order_sensitivity (hsh : String → String)
    (l1 l2 l3 : List ArticleDict) (a b : ArticleDict) (u t : List String)
    (hat : a.title ≠ "") (hbt : b.title = a.title)
    (hau : a.url ≠ "") (hbu : b.url ≠ "") (hne : a.url ≠ b.url)
    (hua : a.url ∉ u) (hub : b.url ∉ u)
    (hl1a : ∀ c ∈ l1, c.url ≠ a.url)
    (hl12b : ∀ c ∈ l1 ++ l2, c.url ≠ b.url)
    (hta : hsh a.title ∉ t)
    (hl1t : ∀ c ∈ l1, hsh c.title ≠ hsh a.title) :
    a ∈ (deduplicate_by_url (l1 ++ a :: (l2 ++ b :: l3)) u).1 ∧
    b ∈ (deduplicate_by_url (l1 ++ a :: (l2 ++ b :: l3)) u).1 ∧
    a ∈ (deduplicate hsh (l1 ++ a :: (l2 ++ b :: l3)) u t "both").1 ∧
    b ∉ (deduplicate hsh (l1 ++ a :: (l2 ++ b :: l3)) u t "both").1 ∧
    (deduplicate hsh (l1 ++ a :: (l2 ++ b :: l3)) u t "both").1 =
      (deduplicate_by_title hsh
        (deduplicate_by_url (l1 ++ a :: (l2 ++ b :: l3)) u).1 t).1 := by
  have hau1 : a.url ∉ (deduplicate_by_url l1 u).2 := by
    intro hx
    rcases deduplicate_by_url_seen_from l1 u _ hx with hmem | ⟨c, hc1, hc2⟩
    · exact hua hmem
    · exact hl1a c hc1 hc2
  have hbu2 : b.url ∉
      (deduplicate_by_url l2 (a.url :: (deduplicate_by_url l1 u).2)).2 := by
    intro hx
    rcases deduplicate_by_url_seen_from l2 _ _ hx with hmem | ⟨c, hc1, hc2⟩
    · rcases List.mem_cons.mp hmem with hmem | hmem
      · exact hne hmem.symm
      · rcases deduplicate_by_url_seen_from l1 u _ hmem with hmem2 | ⟨c, hc1, hc2⟩
        · exact hub hmem2
        · exact hl12b c (List.mem_append.mpr (Or.inl hc1)) hc2
    · exact hl12b c (List.mem_append.mpr (Or.inr hc1)) hc2
  have hURL : (deduplicate_by_url (l1 ++ a :: (l2 ++ b :: l3)) u).1
      = (deduplicate_by_url l1 u).1 ++
        a :: ((deduplicate_by_url l2 (a.url :: (deduplicate_by_url l1 u).2)).1 ++
          b :: (deduplicate_by_url l3
            (b.url :: (deduplicate_by_url l2
              (a.url :: (deduplicate_by_url l1 u).2)).2)).1) := by
    rw [deduplicate_by_url_append l1 (a :: (l2 ++ b :: l3)) u,
        deduplicate_by_url_cons_keep a (l2 ++ b :: l3) _ hau hau1,
        deduplicate_by_url_append l2 (b :: l3) _,
        deduplicate_by_url_cons_keep b l3 _ hbu hbu2]
  have haint : hsh a.title ∉ (deduplicate_by_title hsh (deduplicate_by_url l1 u).1 t).2 := by
    intro hx
    rcases deduplicate_by_title_seen_from hsh _ t _ hx with hmem | ⟨c, hc1, hc2⟩
    · exact hta hmem
    · exact hl1t c (deduplicate_by_url_mem l1 u c hc1).1 hc2
  have hbint : hsh b.title ∈
      (deduplicate_by_title hsh
        (deduplicate_by_url l2 (a.url :: (deduplicate_by_url l1 u).2)).1
        (hsh a.title :: (deduplicate_by_title hsh (deduplicate_by_url l1 u).1 t).2)).2 := by
    rw [hbt]
    exact deduplicate_by_title_seen_mono hsh _ _ _ (List.mem_cons_self _ _)
  have hTITLE : (deduplicate_by_title hsh
      ((deduplicate_by_url l1 u).1 ++
        a :: ((deduplicate_by_url l2 (a.url :: (deduplicate_by_url l1 u).2)).1 ++
          b :: (deduplicate_by_url l3
            (b.url :: (deduplicate_by_url l2
              (a.url :: (deduplicate_by_url l1 u).2)).2)).1)) t).1
      = (deduplicate_by_title hsh (deduplicate_by_url l1 u).1 t).1 ++
        a :: ((deduplicate_by_title hsh
            (deduplicate_by_url l2 (a.url :: (deduplicate_by_url l1 u).2)).1
            (hsh a.title ::
              (deduplicate_by_title hsh (deduplicate_by_url l1 u).1 t).2)).1 ++
          (deduplicate_by_title hsh
            (deduplicate_by_url l3
              (b.url :: (deduplicate_by_url l2
                (a.url :: (deduplicate_by_url l1 u).2)).2)).1
            (deduplicate_by_title hsh
              (deduplicate_by_url l2 (a.url :: (deduplicate_by_url l1 u).2)).1
              (hsh a.title ::
                (deduplicate_by_title hsh (deduplicate_by_url l1 u).1 t).2)).2).1) := by
    rw [deduplicate_by_title_append hsh _ _ t,
        deduplicate_by_title_cons_keep hsh a _ _ hat haint,
        deduplicate_by_title_append hsh _ (b :: _) _,
        deduplicate_by_title_cons_drop hsh b _ _ hbint]
  have hboth : (deduplicate hsh (l1 ++ a :: (l2 ++ b :: l3)) u t "both").1
      = (deduplicate_by_title hsh
          (deduplicate_by_url (l1 ++ a :: (l2 ++ b :: l3)) u).1 t).1 := by
    simp only [deduplicate, if_neg (by decide : ¬("both" = "url")),
      if_neg (by decide : ¬("both" = "title"))]
  have hbnea : b ≠ a := by
    intro hba
    exact hne (by rw [hba])
  refine ⟨?_, ?_, ?_, ?_, hboth⟩
  · rw [hURL]; simp
  · rw [hURL]; simp
  · rw [hboth, hURL, hTITLE]; simp
  · rw [hboth, hURL, hTITLE]
    intro hmem
    rcases List.mem_append.mp hmem with hmem | hmem
    · have hb1 := (deduplicate_by_url_mem l1 u b
        (deduplicate_by_title_mem hsh _ t b hmem).1).1
      exact hl12b b (List.mem_append.mpr (Or.inl hb1)) rfl
    · rcases List.mem_cons.mp hmem with hmem | hmem
      · exact hbnea hmem
      · rcases List.mem_append.mp hmem with hmem | hmem
        · have hb2 := (deduplicate_by_url_mem l2 _ b
            (deduplicate_by_title_mem hsh _ _ b hmem).1).1
          exact hl12b b (List.mem_append.mpr (Or.inr hb2)) rfl
        · have hb3 := (deduplicate_by_url_mem l3 _ b
            (deduplicate_by_title_mem hsh _ _ b hmem).1).2.2
          exact hb3 (List.mem_cons_self _ _)

/-- Concrete candidates for the order-sensitivity counterexample: the
interfering article precedes the pair and shares the first pair member's
URL. -/
def articleInterfering : ArticleDict := { title := "Other News", url := "u1" }

def articleSameTitleA : ArticleDict := { title := "Same Title", url := "u1" }

def articleSameTitleB : ArticleDict := { title := "Same Title", url := "u2" }

/-- C5 counterexample: a candidate list containing two candidates with
equal non-empty titles and distinct non-empty URLs absent from the
(empty) pre-seeded sets, in which the first of the pair does NOT survive
the URL pass, because an earlier candidate in the same list already
claimed its URL.  The URL pass does not involve the title digest at all;
the final-output component instantiates the digest with the identity
function (the digest only enters through equality comparisons, and all
titles here are distinct from the pair's only via URLs). -/
theorem dedup_order_claim_counterexample :
    (articleSameTitleA.title = articleSameTitleB.title ∧
     articleSameTitleA.title ≠ "" ∧
     articleSameTitleA.url ≠ "" ∧ articleSameTitleB.url ≠ "" ∧
     articleSameTitleA.url ≠ articleSameTitleB.url ∧
     articleSameTitleA.url ∉ ([] : List String) ∧
     articleSameTitleB.url ∉ ([] : List String)) ∧
    articleSameTitleA ∉
      (deduplicate_by_url
        [articleInterfering, articleSameTitleA, articleSameTitleB] []).1 ∧
    articleSameTitleB ∈
      (deduplicate (fun s => s)
        [articleInterfering, articleSameTitleA, articleSameTitleB]
        [] [] "both").1 := by
  decide

/-- Witness for the amended C5 theorem on the two-candidate list. -/
theorem dedup_order_sensitivity_witness :
    ({ title := "T", url := "u1" } : ArticleDict) ∈
      (deduplicate (fun s => s)
        [{ title := "T", url := "u1" }, { title := "T", url := "u2" }]
        [] [] "both").1 ∧
    ({ title := "T", url := "u2" } : ArticleDict) ∉
      (deduplicate (fun s => s)
        [{ title := "T", url := "u1" }, { title := "T", url := "u2" }]
        [] [] "both").1 := by
  have h := dedup_order_sensitivity (fun s => s) [] [] []
    { title := "T", url := "u1" } { title := "T", url := "u2" } [] []
    (by decide) (by decide) (by decide) (by decide) (by decide)
    (by decide) (by decide) (by simp) (by simp) (by decide) (by simp)
  exact ⟨h.2.2.1, h.2.2.2.1⟩

/-- Witness for C4 at a concrete input (C4 has no propositional
hypothesis; this records a concrete evaluation of the idempotence
property). -/
theorem dedup_idempotent_witness :
    (deduplicate (fun s => s) [{ title := "T", url := "u" }]
      (deduplicate (fun s => s) [{ title := "T", url := "u" }] [] [] "both").2.1
      (deduplicate (fun s => s) [{ title := "T", url := "u" }] [] [] "both").2.2
      "both").1 = [] :=
  dedup_idempotent (fun s => s) [{ title := "T", url := "u" }] [] []

/-- Scraper-level article record (`Article` in
src/backend/scrapers/base.py lines 11-29).  `published_at` is the naive
wall-clock instant in microseconds: the constructor defaults a missing
timestamp to the fetch time, so the field is always a concrete instant,
and `filter_recent` strips any timezone info via
`replace(tzinfo=None)`, which keeps exactly the wall-clock value the
integer denotes. -/
structure Article where
  title : String
  url : String
  content : String := ""
  published_at : Int := 0
  author : String := ""
deriving DecidableEq, Repr

/-- Microseconds in one hour, the resolution of Python `timedelta`. -/
def microsPerHour : Int := 3600 * 1000000

/-- `BaseScraper.filter_recent` (base.py lines 103-129): keep an article
iff its normalized `published_at` satisfies `pub_date >= cutoff_time`
with `cutoff_time = now - timedelta(hours=hours)`.  The code's
`if article.published_at:` guard is always true in Python, since
`datetime` objects have no falsy values and the `Article` constructor
substitutes the fetch time for a missing timestamp. -/
def filter_recent (now : Int) (articles : List Article) (hours : Int) :
    List Article :=
  articles.filter (fun a => a.published_at ≥ now - hours * microsPerHour)

/-- Boundary article for the recency-filter counterexample: published
exactly at `now - window`. -/
def boundaryArticle : Article :=
  { title := "Boundary", url := "u", published_at := 0 }

/-- C2 counterexample: with `now = 48 h` (in microseconds) and a 48-hour
window, an article published exactly at `now - window` (instant 0) is
KEPT by `filter_recent`, because the code compares with `>=`; the claim
says it is excluded. -/
theorem filter_recent_boundary_counterexample :
    filter_recent (48 * microsPerHour) [boundaryArticle] 48
      = [boundaryArticle] ∧
    boundaryArticle.published_at = 48 * microsPerHour - 48 * microsPerHour := by
  constructor
  · simp [filter_recent, boundaryArticle, microsPerHour]
  · simp [boundaryArticle]

/-- C2 (amended): the recency filter keeps exactly the articles whose
normalized `publishedAt` is at or after `now - window`: the article
exactly at the boundary is included, any instant after it is included,
and only instants strictly before the boundary are dropped. -/
theorem filter_recent_boundary (now : Int) (articles : List Article)
    (hours : Int) (a : Article) :
    a ∈ filter_recent now articles hours ↔
      a ∈ articles ∧ a.published_at ≥ now - hours * microsPerHour := by
  simp [filter_recent]

/-- Witness for the amended C2 theorem: the boundary article is in the
filtered output, and an article one microsecond before the boundary is
not. -/
theorem filter_recent_boundary_witness :
    (boundaryArticle ∈ filter_recent (48 * microsPerHour) [boundaryArticle] 48 ↔
      boundaryArticle ∈ [boundaryArticle] ∧
        boundaryArticle.published_at ≥ 48 * microsPerHour - 48 * microsPerHour) ∧
    ({ title := "Late", url := "u", published_at := -1 } : Article) ∉
      filter_recent (48 * microsPerHour)
        [{ title := "Late", url := "u", published_at := -1 }] 48 := by
  refine ⟨filter_recent_boundary (48 * microsPerHour) [boundaryArticle] 48 boundaryArticle, ?_⟩
  rw [filter_recent_boundary]
  simp [microsPerHour]

/-- Source descriptor dict as read from the configuration provider and
consumed by `NewsAggregator.scrape_source` (main.py lines 208-231).
String fields default to the empty string, matching `dict.get` with a
falsy default (`source.get('feed_url')` returning `None` and an empty
string are indistinguishable to the code, which only uses truthiness). -/
structure SourceDict where
  source_type : String := ""
  name : String := ""
  feed_url : String := ""
  url : String := ""
  fetch_limit : Int := 0
  translate : Bool := false
  deep_read : Bool := false
  notion_id : String := ""
deriving DecidableEq, Repr

/-- Python `str.lower()`; the per-character ASCII lowering of
`Char.toLower` matches it on the ASCII source-type names the code
compares against. -/
def lowerPy (s : String) : String := String.mk (s.toList.map Char.toLower)

/-- Source type/URL resolution portion of `NewsAggregator.scrape_source`
(main.py lines 218-264): prefer `feed_url` over `url` (Python
`feed_url or url`); return `none` when both are empty (the code logs and
returns no articles); when `feed_url` is unset and the declared type is
neither `youtube` nor `twitter`, consult RSS auto-discovery — a found
feed yields type `rss` with the discovered URL, otherwise type `blog`
with the original URL.  In every other case the declared (lowercased)
type and the preferred URL are used unchanged.  The `Bool` component
instruments whether the discovery probe was consulted. -/
def scrape_source_resolve (discover : String → Option String) (s : SourceDict) :
    Option (String × String × Bool) :=
  let source_type := lowerPy s.source_type
  let url := if s.feed_url ≠ "" then s.feed_url else s.url
  if url = "" then none
  else if s.feed_url = "" ∧ source_type ≠ "youtube" ∧ source_type ≠ "twitter" then
    match discover url with
    | some f => some ("rss", f, true)
    | none => some ("blog", url, true)
  else
    some (source_type, url, false)

/-- A page-typed source descriptor that nevertheless has `feedURL` set. -/
def blogSourceWithFeed : SourceDict :=
  { source_type := "blog",
    feed_url := "https://example.com/feed.xml",
    url := "https://example.com" }

/-- C3 counterexample: a descriptor with declared type `blog` and a set
`feedURL` resolves to effective type `blog` — the blog scraper is
dispatched on the feed URL — not to the feed/RSS scraper as the claim
states.  The effective URL is the feed URL and no discovery call is
made, but the effective type keeps the declared type. -/
theorem feed_url_resolution_counterexample :
    blogSourceWithFeed.feed_url ≠ "" ∧
    scrape_source_resolve (fun _ => none) blogSourceWithFeed
      = some ("blog", "https://example.com/feed.xml", false) := by
  constructor
  · decide
  · decide

/-- C3 (amended): whenever `feedURL` is non-empty, resolution uses the
feed URL as the effective URL and performs no auto-discovery probe (the
result does not depend on the discovery oracle and the probe flag is
false), but the effective type is the descriptor's declared lowercased
type; the feed scraper is used only when that declared type is `rss`. -/
theorem feed_url_resolution (discover : String → Option String)
    (s : SourceDict) (hf : s.feed_url ≠ "") :
    scrape_source_resolve discover s
      = some (lowerPy s.source_type, s.feed_url, false) := by
  simp [scrape_source_resolve, hf]

/-- Witness for the amended C3 theorem: even with a discovery oracle
that would find a different feed, a descriptor with a set `feedURL` is
resolved without consulting it. -/
theorem feed_url_resolution_witness :
    ({ source_type := "rss", feed_url := "https://a.com/rss.xml",
       url := "https://a.com" } : SourceDict).feed_url ≠ "" ∧
    scrape_source_resolve (fun _ => some "https://a.com/other.xml")
        { source_type := "rss", feed_url := "https://a.com/rss.xml",
          url := "https://a.com" }
      = some (lowerPy "rss", "https://a.com/rss.xml", false) :=
  ⟨by decide, feed_url_resolution _ _ (by decide)⟩

/-- Membership in Python's `string.ascii_letters`, i.e. the basic-Latin
letter test; Lean's `Char.isAlpha` is exactly this ASCII range check. -/
def isAsciiLetterPy (c : Char) : Bool := c.isAlpha

/-- Count of basic-Latin letters in a text
(`sum(1 for c in text if c in string.ascii_letters)`). -/
def english_chars (s : String) : Nat := (s.toList.filter isAsciiLetterPy).length

/-- Count of alphanumeric characters
(`sum(1 for c in text if c.isalnum())`).  Python's Unicode `isalnum`
table enters as the parameter `isAlnum`; the code only consumes its
verdicts. -/
def total_alnum_chars (isAlnum : Char → Bool) (s : String) : Nat :=
  (s.toList.filter isAlnum).length

/-- `NewsAggregator._needs_translation` (main.py lines 283-292): false
for empty text and for text with no alphanumeric characters, otherwise
true iff the fraction of basic-Latin letters among alphanumeric
characters exceeds 0.3.  The float comparison
`english_chars / total_chars > 0.3` is embedded as the exact rational
test `10 * english > 3 * total`; the two agree on every realistic input
(they can only differ when the ratio is within one double ulp of 3/10,
which needs more than 10^15 characters). -/
def needs_translation (isAlnum : Char → Bool) (text : String) : Bool :=
  if text = "" then false
  else if total_alnum_chars isAlnum text = 0 then false
  else decide (10 * english_chars text > 3 * total_alnum_chars isAlnum text)

/-- `Translator._needs_translation` (translator.py lines 98-105): the
same heuristic without the redundant empty-text guard. -/
def translator_needs_translation (isAlnum : Char → Bool) (text : String) : Bool :=
  if total_alnum_chars isAlnum text = 0 then false
  else decide (10 * english_chars text > 3 * total_alnum_chars isAlnum text)

/-- C7: the needs-translation heuristic (in both its copies, which
coincide) returns exactly "basic-Latin letters / alphanumerics > 0.3",
returns false when the text has no alphanumeric characters, returns true
when basic-Latin letters are 40 percent of a non-zero alphanumeric
count, and returns false on text without any basic-Latin letter. -/
theorem needs_translation_spec (isAlnum : Char → Bool) (text : String) :
    (needs_translation isAlnum text = translator_needs_translation isAlnum text) ∧
    (needs_translation isAlnum text = true ↔
      total_alnum_chars isAlnum text ≠ 0 ∧
        (3 : ℚ) / 10 <
          (english_chars text : ℚ) / (total_alnum_chars isAlnum text : ℚ)) ∧
    (total_alnum_chars isAlnum text = 0 → needs_translation isAlnum text = false) ∧
    (5 * english_chars text = 2 * total_alnum_chars isAlnum text →
      total_alnum_chars isAlnum text ≠ 0 →
      needs_translation isAlnum text = true) ∧
    ((∀ c ∈ text.toList, isAsciiLetterPy c = false) →
      needs_translation isAlnum text = false) := by
  refine ⟨?_, ?_, ?_, ?_, ?_⟩
  · by_cases he : text = ""
    · subst he
      simp [needs_translation, translator_needs_translation, total_alnum_chars]
    · simp [needs_translation, translator_needs_translation, he]
  · by_cases he : text = ""
    · subst he
      simp [needs_translation, total_alnum_chars]
    · by_cases h0 : total_alnum_chars isAlnum text = 0
      · simp [needs_translation, he, h0]
      · have htpos : (0 : ℚ) < (total_alnum_chars isAlnum text : ℚ) := by
          exact_mod_cast Nat.pos_of_ne_zero h0
        simp only [needs_translation, if_neg he, if_neg h0, decide_eq_true_eq]
        rw [div_lt_div_iff₀ (by norm_num) htpos]
        constructor
        · intro hgt
          refine ⟨h0, ?_⟩
          exact_mod_cast by omega
        · intro ⟨_, hlt⟩
          have : 3 * total_alnum_chars isAlnum text < english_chars text * 10 := by
            exact_mod_cast hlt
          omega
  · intro h0
    by_cases he : text = ""
    · simp [needs_translation, he]
    · simp [needs_translation, he, h0]
  · intro hratio h0
    have he : text ≠ "" := by
      intro he
      subst he
      exact h0 (by simp [total_alnum_chars])
    simp only [needs_translation, if_neg he, if_neg h0, decide_eq_true_eq]
    omega
  · intro hall
    have he0 : english_chars text = 0 := by
      simp only [english_chars, List.length_eq_zero, List.filter_eq_nil_iff]
      exact fun c hc => by simp [hall c hc]
    by_cases he : text = ""
    · simp [needs_translation, he]
    · by_cases h0 : total_alnum_chars isAlnum text = 0
      · simp [needs_translation, he, h0]
      · simp [needs_translation, he, h0, he0]

/-- Fragment of Python's Unicode alphanumeric table sufficient for the
heuristic witnesses: ASCII alphanumerics plus the CJK unified
ideographs. -/
def cjkAlnum (c : Char) : Bool :=
  c.isAlphanum || (0x4E00 ≤ c.toNat && c.toNat ≤ 0x9FFF)

/-- Witness for C7: "ab123" (2 of 5 alphanumerics are basic-Latin, 40
percent) triggers translation; pure CJK text and pure punctuation do
not. -/
theorem needs_translation_spec_witness :
    needs_translation cjkAlnum "ab123" = true ∧
    needs_translation cjkAlnum "你好世界" = false ∧
    needs_translation cjkAlnum "!!!" = false := by
  refine ⟨?_, ?_, ?_⟩
  · exact (needs_translation_spec cjkAlnum "ab123").2.2.2.1 (by decide) (by decide)
  · exact (needs_translation_spec cjkAlnum "你好世界").2.2.2.2 (by decide)
  · exact (needs_translation_spec cjkAlnum "!!!").2.2.1 (by decide)

/-- Pluggable translator capability as the pipeline consumes it:
`translate(text) -> string` and
`summarize_and_translate(text) -> {'summary', 'translated'}` with the
target language defaulted inside the provider.  The HTTP providers enter
through these two functions. -/
structure TranslatorM where
  translate : String → String
  summarize_and_translate : String → String × String

/-- Non-twitter article processing of the translation stage (main.py
lines 110-115): translate the title only, when it is non-empty and
passes the heuristic, storing a non-empty result.  The title block of
the twitter branch (lines 100-105) is the same code verbatim. -/
def processOtherArticle (tr : TranslatorM) (isAlnum : Char → Bool)
    (a : ArticleDict) : ArticleDict :=
  if a.title ≠ "" ∧ needs_translation isAlnum a.title = true then
    let tt := tr.translate a.title
    if tt ≠ "" then { a with translated_title := some tt } else a
  else a

/-- Content block of the twitter branch (main.py lines 93-99): when the
content is non-empty and longer than 30 characters, call
`summarize_and_translate` on it, storing each returned field only when
it is non-empty. -/
def twitterContentStep (tr : TranslatorM) (a : ArticleDict) : ArticleDict :=
  if a.content ≠ "" ∧ a.content.length > 30 then
    let r := tr.summarize_and_translate a.content
    let a1 := if r.1 ≠ "" then { a with summary := some r.1 } else a
    if r.2 ≠ "" then { a1 with translated_content := some r.2 } else a1
  else a

/-- Twitter-article processing (main.py lines 92-105): the content block
followed by the title block, which is the same mutation of the same dict
as the non-twitter branch.  The `Bool` component instruments whether
`summarize_and_translate` was invoked, i.e. whether the content guard
held. -/
def processTwitterArticle (tr : TranslatorM) (isAlnum : Char → Bool)
    (a : ArticleDict) : ArticleDict × Bool :=
  (processOtherArticle tr isAlnum (twitterContentStep tr a),
   decide (a.content ≠ "" ∧ a.content.length > 30))

/-- Translation stage of `NewsAggregator.run` (main.py lines 83-117):
with no configured translator the stage leaves every article untouched;
otherwise articles with `source_type == 'twitter'` get the
summarize-and-translate treatment and all others title-only treatment.
The code splits the batch into the two sublists and mutates each article
in place exactly once, so the stage is the per-article map over the
batch. -/
def translationStage (tr? : Option TranslatorM) (isAlnum : Char → Bool)
    (articles : List ArticleDict) : List ArticleDict :=
  match tr? with
  | none => articles
  | some tr =>
    articles.map (fun a =>
      if a.source_type = "twitter" then (processTwitterArticle tr isAlnum a).1
      else processOtherArticle tr isAlnum a)

-- Field-preservation helper lemmas shared by the translation-stage claims.

theorem processOtherArticle_fields (tr : TranslatorM) (isAlnum : Char → Bool)
    (a : ArticleDict) :
    (processOtherArticle tr isAlnum a).summary = a.summary ∧
    (processOtherArticle tr isAlnum a).translated_content = a.translated_content ∧
    (processOtherArticle tr isAlnum a).title = a.title ∧
    (processOtherArticle tr isAlnum a).content = a.content := by
  simp only [processOtherArticle]
  split
  · split <;> simp
  · simp

theorem twitterContentStep_fields (tr : TranslatorM) (a : ArticleDict) :
    (twitterContentStep tr a).summary =
      (if a.content ≠ "" ∧ a.content.length > 30 then
        (if (tr.summarize_and_translate a.content).1 ≠ ""
         then some (tr.summarize_and_translate a.content).1 else a.summary)
       else a.summary) ∧
    (twitterContentStep tr a).translated_content =
      (if a.content ≠ "" ∧ a.content.length > 30 then
        (if (tr.summarize_and_translate a.content).2 ≠ ""
         then some (tr.summarize_and_translate a.content).2 else a.translated_content)
       else a.translated_content) ∧
    (twitterContentStep tr a).title = a.title ∧
    (twitterContentStep tr a).translated_title = a.translated_title := by
  simp only [twitterContentStep]
  refine ⟨?_, ?_, ?_, ?_⟩ <;>
    · split
      · split <;> split <;> simp
      · simp

theorem twitterContentStep_skip (tr : TranslatorM) (a : ArticleDict)
    (h : ¬(a.content ≠ "" ∧ a.content.length > 30)) :
    twitterContentStep tr a = a := by
  simp only [twitterContentStep, if_neg h]

/-- C6: for twitter articles in the translation stage,
`summarize_and_translate` is invoked exactly when the content is longer
than 30 characters (the code's guard `content and len(content) > 30`
collapses to the length test, as a string longer than 30 is non-empty);
its returned fields are stored only when non-empty; and the scenario
with content length 10 and a translatable title yields a translated
title with summary and translated content left unset. -/
theorem twitter_summarize_policy (tr : TranslatorM) (isAlnum : Char → Bool)
    (a : ArticleDict) :
    ((processTwitterArticle tr isAlnum a).2 = true ↔ a.content.length > 30) ∧
    (¬a.content.length > 30 →
      (processTwitterArticle tr isAlnum a).1.summary = a.summary ∧
      (processTwitterArticle tr isAlnum a).1.translated_content =
        a.translated_content) ∧
    (a.content.length > 30 →
      (processTwitterArticle tr isAlnum a).1.summary =
        (if (tr.summarize_and_translate a.content).1 ≠ ""
         then some (tr.summarize_and_translate a.content).1 else a.summary) ∧
      (processTwitterArticle tr isAlnum a).1.translated_content =
        (if (tr.summarize_and_translate a.content).2 ≠ ""
         then some (tr.summarize_and_translate a.content).2
         else a.translated_content)) ∧
    (a.content.length = 10 → a.summary = none → a.translated_content = none →
      a.title ≠ "" → needs_translation isAlnum a.title = true →
      tr.translate a.title ≠ "" →
      (processTwitterArticle tr isAlnum a).1.translated_title =
        some (tr.translate a.title) ∧
      (processTwitterArticle tr isAlnum a).1.summary = none ∧
      (processTwitterArticle tr isAlnum a).1.translated_content = none) := by
  have hlen : a.content.length > 30 → a.content ≠ "" := by
    intro hl he
    rw [he] at hl
    simp at hl
  refine ⟨?_, ?_, ?_, ?_⟩
  · simp only [processTwitterArticle, decide_eq_true_eq]
    exact ⟨fun h => h.2, fun h => ⟨hlen h, h⟩⟩
  · intro h
    have hc : ¬(a.content ≠ "" ∧ a.content.length > 30) := fun hh => h hh.2
    simp only [processTwitterArticle, twitterContentStep_skip tr a hc]
    exact ⟨(processOtherArticle_fields tr isAlnum a).1,
      (processOtherArticle_fields tr isAlnum a).2.1⟩
  · intro h
    have hc : a.content ≠ "" ∧ a.content.length > 30 := ⟨hlen h, h⟩
    have hf := twitterContentStep_fields tr a
    have hg := processOtherArticle_fields tr isAlnum (twitterContentStep tr a)
    constructor
    · rw [processTwitterArticle]
      rw [hg.1, hf.1, if_pos hc]
    · rw [processTwitterArticle]
      rw [hg.2.1, hf.2.1, if_pos hc]
  · intro hlen10 hs hwc ht hnt htt
    have hc : ¬(a.content ≠ "" ∧ a.content.length > 30) := by
      intro hh
      rw [hlen10] at hh
      exact absurd hh.2 (by omega)
    simp only [processTwitterArticle, twitterContentStep_skip tr a hc,
      processOtherArticle, if_pos (And.intro ht hnt)]
    simp [htt, hs, hwc]

/-- Translator instance for the short-tweet scenario witness. -/
def tweetTranslator : TranslatorM :=
  { translate := fun _ => "测试标题",
    summarize_and_translate := fun _ => ("摘要", "翻译") }

/-- A twitter article with content of length 10 and an English title. -/
def shortTweet : ArticleDict :=
  { title := "Short tweet", url := "https://t.co/x", content := "hello tips",
    source_type := "twitter" }

/-- Witness for C6: the scenario article gets a translated title while
summary and translated content stay empty, even against a provider whose
summarize-and-translate would return non-empty fields. -/
theorem twitter_summarize_policy_witness :
    (processTwitterArticle tweetTranslator cjkAlnum shortTweet).1.translated_title
      = some (tweetTranslator.translate shortTweet.title) ∧
    (processTwitterArticle tweetTranslator cjkAlnum shortTweet).1.summary = none ∧
    (processTwitterArticle tweetTranslator cjkAlnum shortTweet).1.translated_content
      = none :=
  (twitter_summarize_policy tweetTranslator cjkAlnum shortTweet).2.2.2
    (by decide) (by decide) (by decide) (by decide) (by decide) (by decide)

/-- An article whose owning source has the translate flag unset. -/
def nonTranslateSourceArticle : ArticleDict :=
  { title := "Hello World", url := "https://a.com/p", source_type := "rss",
    translate := false }

/-- A translator whose title translation always succeeds. -/
def demoTranslator : TranslatorM :=
  { translate := fun _ => "你好，世界",
    summarize_and_translate := fun _ => ("", "") }

/-- C1: the translation stage of `run` never consults the `translate`
flag that `scrape_source` attaches to every article (main.py line 273):
an article whose source has translate unset, with an English title,
still gets `translatedTitle` set by the pipeline. -/
theorem translate_flag_ignored :
    nonTranslateSourceArticle.translate = false ∧
    translationStage (some demoTranslator) cjkAlnum [nonTranslateSourceArticle]
      = [{ nonTranslateSourceArticle with translated_title := some "你好，世界" }] := by
  constructor
  · rfl
  · decide

/-- The opening curly brace character. -/
def braceOpen : Char := Char.ofNat 123

/-- The closing curly brace character. -/
def braceClose : Char := Char.ofNat 125

/-- Index of the first occurrence of a character (Python `str.index`,
whose `in`-guarded use never raises here). -/
def firstIdxOf (c : Char) : List Char → Option Nat
  | [] => none
  | x :: xs => if x = c then some 0 else (firstIdxOf c xs).map (· + 1)

/-- Index of the last occurrence of a character (Python `str.rindex`). -/
def lastIdxOf (c : Char) (l : List Char) : Option Nat :=
  match firstIdxOf c l.reverse with
  | some i => some (l.length - 1 - i)
  | none => none

/-- The brace-delimited slice
`result[result.index(brace) : result.rindex(brace)+1]` attempted by both
provider implementations; `none` models the guard
`brace in result and closing brace in result` failing (a character is in
the string exactly when its first index exists). -/
def extractJsonCandidate (result : String) : Option String :=
  match firstIdxOf braceOpen result.toList, lastIdxOf braceClose result.toList with
  | some s, some e => some (String.mk ((result.toList.drop s).take (e + 1 - s)))
  | _, _ => none

/-- Post-processing of the provider text in
`DeepSeekTranslator.summarize_and_translate` (translator.py lines
180-201): try to parse the brace-delimited slice as JSON and read
`summary`/`translated` with empty-string defaults; the JSON parser and
the dict-field reads enter as the oracle `jparse`, whose `none` covers a
`json.loads` exception as well as a non-dict result.  On any failure
fall back to `("", raw)` for non-empty raw text and `("", "")`
otherwise.  `OpenAITranslator.summarize_and_translate` (lines 266-282)
computes the same values. -/
def summarize_and_translate_model (jparse : String → Option (String × String))
    (result : String) : String × String :=
  match (extractJsonCandidate result).bind jparse with
  | some p => p
  | none => if result ≠ "" then ("", result) else ("", "")

/-- Full provider call (translator.py lines 159-201): `_call_api`
(returning the stripped completion text, or an empty string on a missing
key or any HTTP error) followed by the JSON post-processing. -/
def provider_summarize_and_translate (api : String → String)
    (jparse : String → Option (String × String)) (text : String) :
    String × String :=
  summarize_and_translate_model jparse (api text)

/-- C8: when no JSON object can be parsed out of the provider text, the
result is summary empty and translated equal to the raw provider text
(itself empty when the text is empty); the stage is a total function, so
processing drops no article (the output batch has the same length); and
when the provider call fails outright (empty raw text), the processed
article keeps its summary and translated-content fields unchanged. -/
theorem malformed_json_fallback (api : String → String)
    (jparse : String → Option (String × String)) (tf : String → String)
    (isAlnum : Char → Bool) (articles : List ArticleDict) (text : String)
    (hfail : (extractJsonCandidate (api text)).bind jparse = none) :
    provider_summarize_and_translate api jparse text = ("", api text) ∧
    (translationStage
        (some { translate := tf,
                summarize_and_translate :=
                  provider_summarize_and_translate api jparse })
        isAlnum articles).length = articles.length ∧
    (∀ a : ArticleDict, api a.content = "" →
      (processTwitterArticle
          { translate := tf,
            summarize_and_translate :=
              provider_summarize_and_translate api jparse }
          isAlnum a).1.summary = a.summary ∧
      (processTwitterArticle
          { translate := tf,
            summarize_and_translate :=
              provider_summarize_and_translate api jparse }
          isAlnum a).1.translated_content = a.translated_content) := by
  refine ⟨?_, ?_, ?_⟩
  · simp only [provider_summarize_and_translate, summarize_and_translate_model, hfail]
    by_cases h : api text = ""
    · simp [h]
    · simp [h]
  · simp [translationStage]
  · intro a hA
    have hprov : provider_summarize_and_translate api jparse a.content = ("", "") := by
      simp [provider_summarize_and_translate, summarize_and_translate_model, hA,
        extractJsonCandidate, firstIdxOf]
    have hf := twitterContentStep_fields
      { translate := tf,
        summarize_and_translate := provider_summarize_and_translate api jparse } a
    have hg := processOtherArticle_fields
      { translate := tf,
        summarize_and_translate := provider_summarize_and_translate api jparse }
      isAlnum
      (twitterContentStep
        { translate := tf,
          summarize_and_translate := provider_summarize_and_translate api jparse } a)
    constructor
    · rw [processTwitterArticle, hg.1, hf.1]
      simp [hprov]
    · rw [processTwitterArticle, hg.2.1, hf.2.1]
      simp [hprov]

/-- Witness for C8: a provider answering prose with no braces falls back
to summary empty, translated equal to the raw text. -/
theorem malformed_json_fallback_witness :
    provider_summarize_and_translate (fun _ => "not valid json")
      (fun _ => none) "some tweet text" = ("", "not valid json") :=
  (malformed_json_fallback (fun _ => "not valid json") (fun _ => none)
    (fun _ => "") cjkAlnum [] "some tweet text" (by decide)).1

/-- Feedparser entry as `RSSScraper.fetch` consumes it
(src/backend/scrapers/rss.py lines 36-66): `title`/`link` are the raw
dict lookups (`none` = key absent), while `content`, `published_at` and
`author` carry the results of the extraction helpers
(`_extract_content`, `_extract_published_at`, `entry.get('author','')`),
whose internals parse external feedparser structures and regex-strip
HTML and are irrelevant to which entries are emitted. -/
structure FeedEntry where
  title : Option String := none
  link : Option String := none
  content : String := ""
  published_at : Int := 0
  author : String := ""
deriving Repr

/-- `RSSScraper.fetch` entry loop (rss.py lines 36-66): bound the entry
list by `max_articles`, default a missing title to "No Title", and drop
any entry whose link is missing or empty (`url = entry.get('link', '');
if not url: continue`). -/
def rssFetch (max_articles : Nat) (entries : List FeedEntry) : List Article :=
  (entries.take max_articles).filterMap (fun e =>
    let url := e.link.getD ""
    if url = "" then none
    else some { title := e.title.getD "No Title", url := url,
                content := e.content, published_at := e.published_at,
                author := e.author })

/-- BeautifulSoup article element as `BlogScraper._parse_article_element`
consumes it (src/backend/scrapers/blog.py lines 71-135): each field is
the outcome of the respective ordered selector chain (`none` = no
selector matched, or for `anchorHref`, no anchor or no `href` attribute;
`timeValue` is the parsed instant, whose date-string parsing itself
falls back to the fetch time). -/
structure BlogElement where
  titleText : Option String := none
  anchorHref : Option String := none
  contentText : Option String := none
  timeValue : Option Int := none
  authorText : Option String := none
deriving Repr

/-- Python string slicing `s[:n]`, in the list-based form that reduces
well (it agrees with `String.take`). -/
def takePy (s : String) (n : Nat) : String := String.mk (s.toList.take n)

/-- The page origin `'/'.join(self.url.split('/')[:3])` used to resolve
relative links. -/
def baseOrigin (pageURL : String) : String :=
  String.intercalate "/" ((pageURL.splitOn "/").take 3)

/-- `BlogScraper._parse_article_element` (blog.py lines 71-135): drop
the element when no title text was found; take the anchor's href when
present and non-empty, resolving a leading-slash relative link against
the page origin, and otherwise fall back to the scraper's page URL;
truncate the content snippet to 500 characters; default the timestamp to
the fetch time and the author to the empty string. -/
def parse_article_element (now : Int) (pageURL : String) (e : BlogElement) :
    Option Article :=
  let title := e.titleText.getD ""
  if title = "" then none
  else
    let url :=
      match e.anchorHref with
      | some h =>
        if h ≠ "" then
          (if h.startsWith "/" then baseOrigin pageURL ++ h else h)
        else pageURL
      | none => pageURL
    some { title := title, url := url,
           content := takePy (e.contentText.getD "") 500,
           published_at := e.timeValue.getD now,
           author := e.authorText.getD "" }

theorem string_append_ne_empty (x y : String) (hy : y ≠ "") : x ++ y ≠ "" := by
  intro h
  apply hy
  have hdata : x.data ++ y.data = [] := by
    have := String.ext_iff.mp h
    simpa using this
  have := (List.append_eq_nil.mp hdata).2
  exact String.ext_iff.mpr (by simpa using this)

/-- C9: every article emitted by the feed scraper has a non-empty URL (a
feed entry with no link is dropped); every article emitted by the page
scraper's element parser has a non-empty URL whenever the scraper's page
URL is non-empty (an element with no extractable link falls back to the
page URL), and an element with no title text is dropped. -/
theorem scraper_output_urls_nonempty (max_articles : Nat)
    (entries : List FeedEntry) (now : Int) (pageURL : String) (e : BlogElement)
    (hpage : pageURL ≠ "") :
    (∀ a ∈ rssFetch max_articles entries, a.url ≠ "") ∧
    (∀ a : Article, parse_article_element now pageURL e = some a → a.url ≠ "") ∧
    (e.titleText.getD "" = "" → parse_article_element now pageURL e = none) := by
  refine ⟨?_, ?_, ?_⟩
  · intro a ha
    simp only [rssFetch, List.mem_filterMap] at ha
    obtain ⟨en, _, hsome⟩ := ha
    by_cases hu : en.link.getD "" = ""
    · simp [hu] at hsome
    · rw [if_neg hu, Option.some_inj] at hsome
      subst hsome
      simpa using hu
  · intro a hsome
    by_cases ht : e.titleText.getD "" = ""
    · simp [parse_article_element, ht] at hsome
    · simp only [parse_article_element, if_neg ht] at hsome
      rw [Option.some_inj] at hsome
      subst hsome
      cases he : e.anchorHref with
      | none => simpa [he] using hpage
      | some h =>
        by_cases hh : h = ""
        · simpa [he, hh] using hpage
        · by_cases hs : h.startsWith "/"
          · simp only [he, hh, hs, if_true, ite_true, ne_eq, if_neg, ite_eq_right_iff]
            exact string_append_ne_empty (baseOrigin pageURL) h hh
          · simp [he, hh, hs]
  · intro ht
    simp [parse_article_element, ht]

set_option maxRecDepth 4000 in
/-- Witness for C9: a concrete feed entry with a link yields an article
with a non-empty URL, and a concrete titled element with no anchor falls
back to the page URL. -/
theorem scraper_output_urls_nonempty_witness :
    ({ title := "No Title", url := "https://x/1" } : Article).url ≠ "" ∧
    ({ title := "T", url := "https://b.com" } : Article).url ≠ "" := by
  have h := scraper_output_urls_nonempty 50 [{ link := some "https://x/1" }]
    0 "https://b.com" { titleText := some "T" } (by decide)
  exact ⟨h.1 _ (by decide), h.2.1 _ (by decide)⟩
